import Mathlib

/-!
The worker of the Alephium GPU miner, `src/worker.h`.

A shallow embedding of the worker life cycle of the Alephium GPU miner
(`reset_worker`, `setup_template`, `write_new_block` and the atomic accessors)
together with the properties the specification states about them.

Conventions of the embedding.

* A byte (`uint8_t`) is a `Nat`; every store that converts a wider integer to
  a byte is written with an explicit `% 256`.
* A C array or a pointer-plus-length pair is the `List Nat` of the bytes it
  designates.  `memcpy`, `memset` and indexed stores are bounds checked: an
  access outside the array is undefined behaviour in C and `none` here.
* `ssize_t` quantities are sums of object lengths and a few small constants;
  they are kept in `Nat`.  The bytes counted by `message_size + 4` are all
  written to one output object, whose size is at most `PTRDIFF_MAX`, so the
  signed arithmetic of `write_new_block` cannot overflow in an execution
  whose writes are defined.  The `size_t` subtraction of `reset_worker` can
  wrap and is written with its modulus.
* Pointers to templates are addresses (`Nat`) looked up in a template memory;
  an address without a template (null, dangling) makes the dereference
  undefined, hence `none`.
* `std::mt19937` and `std::uniform_int_distribution` belong to the C++
  library, not to the repository.  The generator state is an arbitrary type
  `G`.  The class `std::uniform_int_distribution<>` is a parameter
  `uniform_int_distribution : Nat → Nat → G → Nat × G`: constructed with the
  bounds `a` and `b`, one call on the generator returns the drawn value and
  the next generator state.  What the C++ standard guarantees of it, that a
  draw of the distribution constructed with `a ≤ b` lies between `a` and
  `b`, is a hypothesis where it is used.  `reset_worker` constructs its
  distribution with the bounds `0` and `UINT8_MAX`, which are not negative,
  so the drawn `int` is kept in `Nat`.
* A failing `assert` aborts the process: `none`.
* The diagnostic `printf` of `write_new_block` is left out.
* The output buffer of `write_new_block` is taken large enough for the
  message; the write cursor is embedded as the list of the bytes written so
  far.

The end-to-end scenario of the specification (50 zero header bytes,
transactions `AB`, target `0x01`, `BLAKE3_BUF_LEN = 74`,
`BLAKE3_BUF_CAP = 128`) is the running example.
-/

namespace GpuMiner

/-! ## Data model -/

/-- The `blob_t` of `messages.h` (pointer `blob`, length `len`), embedded as
the bytes it designates. -/
structure blob_t where
  blob : List Nat
deriving DecidableEq

/-- The field `len` of a `blob_t`. -/
def blob_t.len (b : blob_t) : Nat := b.blob.length

/-- The fields of `job_t` that `worker.h` reads. -/
structure job_t where
  from_group : Int
  to_group : Int
  header_blob : blob_t
  txs_blob : blob_t
  target : blob_t
deriving DecidableEq

/-- The fields of `mining_template_t` that `worker.h` reaches: the job it
points at and the atomic reference count. -/
structure mining_template_t where
  job : job_t
  ref_count : Nat
deriving DecidableEq

/-- Template memory: what lives at each address. -/
abbrev template_mem : Type := Nat → Option mining_template_t

/-- The fields of `inline_blake::blake3_hasher` and `ref_blake::blake3_hasher`
that `worker.h` touches; they carry the same names in both variants.
`buf` is `uint8_t buf[BLAKE3_BUF_CAP]`, `hash` is 64 bytes, `target` 32. -/
structure blake3_hasher where
  buf : List Nat
  hash : List Nat
  target : List Nat
  from_group : Int
  to_group : Int
  hash_count : Nat
  found_good_hash : Bool
deriving DecidableEq

/-- The `union hasher` of `mining_worker_t`: a pointer to a hasher of one of
the two variants, embedded as the hasher pointed at, tagged with the member
that was stored. -/
inductive hasher where
  | inline_hasher : blake3_hasher → hasher
  | ref_hasher : blake3_hasher → hasher
deriving DecidableEq

/-- The `mining_worker_t` of `worker.h`, without the opaque CUDA stream and
libuv handles.  `G` is the state type of `random_gen`. -/
structure mining_worker_t (G : Type) where
  id : Nat
  device_id : Int
  grid_size : Int
  block_size : Int
  host_hasher : hasher
  device_hasher : hasher
  is_inline_miner : Bool
  found_good_hash : Bool
  template_ptr : Nat
  random_gen : G
deriving DecidableEq

/-! ## C library primitives -/

/-- An indexed byte store `a[i] = v`. -/
def store_byte (a : List Nat) (i v : Nat) : Option (List Nat) :=
  if i < a.length then some (a.set i v) else none

/-- The call `memcpy(dst + off, src, len)` on the array `dst`. -/
def memcpy (dst : List Nat) (off : Nat) (src : List Nat) : Option (List Nat) :=
  if off + src.length ≤ dst.length then
    some (dst.take off ++ src ++ dst.drop (off + src.length))
  else none

/-- The call `memset(dst, v, n)` on the array `dst`. -/
def memset (dst : List Nat) (v n : Nat) : Option (List Nat) :=
  if n ≤ dst.length then some (List.replicate n v ++ dst.drop n) else none

/-! ## Atomic accessors (`worker.h`, lines 71-89) -/

/-- The function `load_worker__found_good_hash`. -/
def load_worker__found_good_hash {G : Type} (worker : mining_worker_t G) : Bool :=
  worker.found_good_hash

/-- The function `store_worker_found_good_hash`. -/
def store_worker_found_good_hash {G : Type} (worker : mining_worker_t G) (value : Bool) :
    mining_worker_t G :=
  { worker with found_good_hash := value }

/-- The function `load_worker__template`. -/
def load_worker__template {G : Type} (worker : mining_worker_t G) : Nat :=
  worker.template_ptr

/-- The function `store_worker__template`. -/
def store_worker__template {G : Type} (worker : mining_worker_t G) (template_ptr : Nat) :
    mining_worker_t G :=
  { worker with template_ptr := template_ptr }

/-! ## `reset_worker` (`worker.h`, lines 91-138) -/

/-- The loop `for (int i = 0; i < 24; i++) hasher->buf[i] = distrib(random_gen)`,
entered at index `i` with `n` iterations left.  The `int` drawn is converted
to `uint8_t` by the store. -/
def nonce_loop {G : Type} (distrib : G → Nat × G) :
    Nat → Nat → List Nat → G → Option (List Nat × G)
  | 0, _, buf, gen => some (buf, gen)
  | n + 1, i, buf, gen =>
    match store_byte buf i ((distrib gen).1 % 256) with
    | none => none
    | some buf1 => nonce_loop distrib n (i + 1) buf1 (distrib gen).2

/-- The value of `size_t target_zero_len = 32 - job->target.len` on a 64-bit
target: the difference wraps when the target is longer than 32 bytes. -/
def target_zero_len (len : Nat) : Nat :=
  (((32 : Int) - (len : Int)) % 18446744073709551616).toNat

/-- The left-hand side of the second assertion of `reset_worker`,
`(m + 63) / 64 * 64`, at `m = 24 + job->header_blob.len`. -/
def asserted_cap (m : Nat) : Nat := (m + 63) / 64 * 64

/-- The constant `UINT8_MAX` of `stdint.h`. -/
def UINT8_MAX : Nat := 255

/-- The function `reset_worker`.  The distribution is constructed with the
bounds `0` and `UINT8_MAX` (line 93), the template pointer is loaded and
dereferenced, the arm selected by `is_inline_miner` runs on the member of
the union it names (reading the member that was not stored is undefined),
and the worker-level flag is cleared.  `BLAKE3_BUF_LEN` and `BLAKE3_BUF_CAP`
are constants of `blake3.cu`. -/
def reset_worker {G : Type} (BLAKE3_BUF_LEN BLAKE3_BUF_CAP : Nat)
    (uniform_int_distribution : Nat → Nat → G → Nat × G)
    (mem : template_mem) (worker : mining_worker_t G) : Option (mining_worker_t G) :=
  let distrib := uniform_int_distribution 0 UINT8_MAX
  let inline_kernel := worker.is_inline_miner
  match mem worker.template_ptr with
  | none => none
  | some template =>
    let job := template.job
    if inline_kernel then
      match worker.host_hasher with
      | hasher.ref_hasher _ => none
      | hasher.inline_hasher h =>
        match nonce_loop distrib 24 0 h.buf worker.random_gen with
        | none => none
        | some (buf1, gen1) =>
          match memcpy buf1 24 job.header_blob.blob with
          | none => none
          | some buf2 =>
            if 24 + job.header_blob.len ≠ BLAKE3_BUF_LEN then none
            else if asserted_cap (24 + job.header_blob.len) ≠ BLAKE3_BUF_CAP then none
            else
              match memset h.target 0 (target_zero_len job.target.len) with
              | none => none
              | some target1 =>
                match memcpy target1 (target_zero_len job.target.len) job.target.blob with
                | none => none
                | some target2 =>
                  some (store_worker_found_good_hash
                    { worker with
                      host_hasher := hasher.inline_hasher
                        { h with
                          buf := buf2
                          target := target2
                          from_group := job.from_group
                          to_group := job.to_group
                          hash_count := 0
                          found_good_hash := false }
                      random_gen := gen1 } false)
    else
      match worker.host_hasher with
      | hasher.inline_hasher _ => none
      | hasher.ref_hasher h =>
        match nonce_loop distrib 24 0 h.buf worker.random_gen with
        | none => none
        | some (buf1, gen1) =>
          match memcpy buf1 24 job.header_blob.blob with
          | none => none
          | some buf2 =>
            if 24 + job.header_blob.len ≠ BLAKE3_BUF_LEN then none
            else if asserted_cap (24 + job.header_blob.len) ≠ BLAKE3_BUF_CAP then none
            else
              match memset h.target 0 (target_zero_len job.target.len) with
              | none => none
              | some target1 =>
                match memcpy target1 (target_zero_len job.target.len) job.target.blob with
                | none => none
                | some target2 =>
                  some (store_worker_found_good_hash
                    { worker with
                      host_hasher := hasher.ref_hasher
                        { h with
                          buf := buf2
                          target := target2
                          from_group := job.from_group
                          to_group := job.to_group
                          hash_count := 0
                          found_good_hash := false }
                      random_gen := gen1 } false)

/-! ## `write_new_block` (`worker.h`, lines 171-189) -/

/-- Modelled from the spec: `write_size` of `messages.h` is not among the sources at hand.
The wire format gives each length field as a `u32` in network byte order;
the cursor advances by the four bytes written. -/
def write_size (write_pos : List Nat) (size : Nat) : List Nat :=
  write_pos ++ [size / 16777216 % 256, size / 65536 % 256, size / 256 % 256, size % 256]

/-- Modelled from the spec: `write_byte` of `messages.h` is not among the sources at hand.
One byte (`u8 type`) is written at the cursor. -/
def write_byte (write_pos : List Nat) (byte : Nat) : List Nat :=
  write_pos ++ [byte % 256]

/-- Modelled from the spec: `write_bytes` of `messages.h` is not among the sources at hand.
The first `len` bytes of `data` are written at the cursor (`24B nonce`);
reading past the end of `data` is undefined. -/
def write_bytes (write_pos : List Nat) (data : List Nat) (len : Nat) : Option (List Nat) :=
  if len ≤ data.length then some (write_pos ++ data.take len) else none

/-- Modelled from the spec: `write_blob` of `messages.h` is not among the sources at hand.
The bytes of the blob are written verbatim at the cursor, with no length
field of their own (`[header_blob][txs_blob]`). -/
def write_blob (write_pos : List Nat) (b : blob_t) : List Nat :=
  write_pos ++ b.blob

/-- The expression `is_inline_miner ? host_hasher.inline_hasher->buf :
host_hasher.ref_hasher->buf`. -/
def host_buf {G : Type} (worker : mining_worker_t G) : Option (List Nat) :=
  if worker.is_inline_miner then
    match worker.host_hasher with
    | hasher.inline_hasher h => some h.buf
    | hasher.ref_hasher _ => none
  else
    match worker.host_hasher with
    | hasher.ref_hasher h => some h.buf
    | hasher.inline_hasher _ => none

/-- The function `write_new_block`.  The output cursor `write_pos` is the
list of the bytes written from `write_buf` on, in order, so that the
distance it advanced is the length of that list.  The result is the bytes
written and the value returned.  A `ssize_t` size is a `Nat`: lengths are
not negative. -/
def write_new_block {G : Type} (mem : template_mem) (worker : mining_worker_t G) :
    Option (List Nat × Nat) :=
  match mem (load_worker__template worker) with
  | none => none
  | some template =>
    let job := template.job
    match host_buf worker with
    | none => none
    | some nonce =>
      let write_pos : List Nat := []
      let block_size := 24 + job.header_blob.len + job.txs_blob.len
      let message_size := 1 + 4 + block_size
      let write_pos := write_size write_pos message_size
      let write_pos := write_byte write_pos 0
      let write_pos := write_size write_pos block_size
      match write_bytes write_pos nonce 24 with
      | none => none
      | some write_pos =>
        let write_pos := write_blob write_pos job.header_blob
        let write_pos := write_blob write_pos job.txs_blob
        some (write_pos, message_size + 4)

/-! ## `setup_template` (`worker.h`, lines 191-195) -/

/-- Modelled from the spec: `add_template__ref_count` of `template.h` is not
among the sources at hand.  The reference count of the template at `template_ptr` is
atomically incremented by `value`; no other template is touched. -/
def add_template__ref_count (mem : template_mem) (template_ptr : Nat) (value : Nat) :
    Option template_mem :=
  match mem template_ptr with
  | none => none
  | some t =>
    some (fun p => if p = template_ptr then some { t with ref_count := t.ref_count + value }
                   else mem p)

/-- The function `setup_template`: the count is raised, then the pointer is
published. -/
def setup_template {G : Type} (mem : template_mem) (worker : mining_worker_t G)
    (template_ptr : Nat) : Option (template_mem × mining_worker_t G) :=
  match add_template__ref_count mem template_ptr 1 with
  | none => none
  | some mem1 => some (mem1, store_worker__template worker template_ptr)

/-! ## Specification-side definitions -/

/-- The values of the first `n` calls `distrib(random_gen)` from state `g`. -/
def draw_values {G : Type} (distrib : G → Nat × G) : Nat → G → List Nat
  | 0, _ => []
  | n + 1, g => (distrib g).1 :: draw_values distrib n (distrib g).2

/-- The generator state after `n` calls `distrib(random_gen)` from state `g`. -/
def draw_state {G : Type} (distrib : G → Nat × G) : Nat → G → G
  | 0, g => g
  | n + 1, g => draw_state distrib n (distrib g).2

/-- The host hasher a worker runs on: the member of the union named by
`is_inline_miner`. -/
def host_hasher_of {G : Type} (worker : mining_worker_t G) : Option blake3_hasher :=
  if worker.is_inline_miner then
    match worker.host_hasher with
    | hasher.inline_hasher h => some h
    | hasher.ref_hasher _ => none
  else
    match worker.host_hasher with
    | hasher.ref_hasher h => some h
    | hasher.inline_hasher _ => none

/-- The union with the hasher pointed at replaced, the member kept. -/
def hasher.with_state : hasher → blake3_hasher → hasher
  | hasher.inline_hasher _, h => hasher.inline_hasher h
  | hasher.ref_hasher _, h => hasher.ref_hasher h

/-- The statements the two arms of `reset_worker` share (lines 100-115 on
the inline hasher, lines 118-133 on the reference hasher), as a function of
the hasher and the generator alone. -/
def reset_hasher {G : Type} (BLAKE3_BUF_LEN BLAKE3_BUF_CAP : Nat) (distrib : G → Nat × G)
    (job : job_t) (h : blake3_hasher) (random_gen : G) : Option (blake3_hasher × G) :=
  match nonce_loop distrib 24 0 h.buf random_gen with
  | none => none
  | some (buf1, gen1) =>
    match memcpy buf1 24 job.header_blob.blob with
    | none => none
    | some buf2 =>
      if 24 + job.header_blob.len ≠ BLAKE3_BUF_LEN then none
      else if asserted_cap (24 + job.header_blob.len) ≠ BLAKE3_BUF_CAP then none
      else
        match memset h.target 0 (target_zero_len job.target.len) with
        | none => none
        | some target1 =>
          match memcpy target1 (target_zero_len job.target.len) job.target.blob with
          | none => none
          | some target2 =>
            some ({ h with
                      buf := buf2
                      target := target2
                      from_group := job.from_group
                      to_group := job.to_group
                      hash_count := 0
                      found_good_hash := false }, gen1)

/-- The hasher a successful `reset_worker` leaves behind, from the job, the
hasher before and the generator state before. -/
def hasher_after_reset {G : Type} (distrib : G → Nat × G) (job : job_t) (h : blake3_hasher)
    (gen : G) : blake3_hasher :=
  { h with
    buf := (draw_values distrib 24 gen).map (· % 256) ++ job.header_blob.blob
            ++ h.buf.drop (24 + job.header_blob.len)
    target := List.replicate (target_zero_len job.target.len) 0 ++ job.target.blob
            ++ h.target.drop (target_zero_len job.target.len + job.target.len)
    from_group := job.from_group
    to_group := job.to_group
    hash_count := 0
    found_good_hash := false }

/-- The value of a byte string read as a big-endian integer. -/
def be_value (bytes : List Nat) : Nat :=
  bytes.foldl (fun acc b => acc * 256 + b) 0

/-- A message of the wire format of section 6 of the specification, as a
receiver reads it. -/
structure new_block_message where
  message_length : Nat
  message_type : Nat
  block_length : Nat
  nonce : List Nat
  header : List Nat
  txs : List Nat
deriving DecidableEq

/-- Reading a `u32` in network byte order. -/
def read_size : List Nat → Option (Nat × List Nat)
  | b0 :: b1 :: b2 :: b3 :: rest =>
    some (b0 * 16777216 + b1 * 65536 + b2 * 256 + b3, rest)
  | _ => none

/-- Reading `n` bytes. -/
def read_bytes (n : Nat) (bytes : List Nat) : Option (List Nat × List Nat) :=
  if n ≤ bytes.length then some (bytes.take n, bytes.drop n) else none

/-- The inverse of the wire format of section 6 of the specification, for a
receiver that knows the header length: a 4-byte length, a type byte, a
4-byte block length, 24 nonce bytes, `header_len` header bytes, and the
remaining bytes as transactions. -/
def parse_new_block (header_len : Nat) (bytes : List Nat) : Option new_block_message :=
  match read_size bytes with
  | none => none
  | some (message_length, r1) =>
    match r1 with
    | [] => none
    | message_type :: r2 =>
      match read_size r2 with
      | none => none
      | some (block_length, r3) =>
        match read_bytes 24 r3 with
        | none => none
        | some (nonce, r4) =>
          match read_bytes header_len r4 with
          | none => none
          | some (header, txs) =>
            some { message_length := message_length
                   message_type := message_type
                   block_length := block_length
                   nonce := nonce
                   header := header
                   txs := txs }

/-! ## The end-to-end scenario of the specification -/

/-- A stand-in for the library: the generator state is a counter, and a
draw of the distribution with bounds `a` and `b` returns `a` plus the
counter reduced modulo the number of values in the range, and advances the
counter. -/
def counter_uniform (a b g : Nat) : Nat × Nat := (a + g % (b - a + 1), g + 1)

/-- The job of the scenario: 50 zero header bytes, transactions `"AB"`,
target `0x01`. -/
def scenario_job : job_t :=
  { from_group := 1
    to_group := 2
    header_blob := { blob := List.replicate 50 0 }
    txs_blob := { blob := [65, 66] }
    target := { blob := [1] } }

/-- Template memory of the scenario: the job at address 1, a second
template at address 2. -/
def scenario_mem : template_mem := fun p =>
  if p = 1 then some { job := scenario_job, ref_count := 0 }
  else if p = 2 then some { job := scenario_job, ref_count := 5 }
  else none

/-- A freshly initialised hasher for `BLAKE3_BUF_CAP = 128`, with a stale
target, count and flag. -/
def scenario_hasher : blake3_hasher :=
  { buf := List.replicate 128 0
    hash := List.replicate 64 0
    target := List.replicate 32 255
    from_group := 0
    to_group := 0
    hash_count := 7
    found_good_hash := true }

/-- A worker of the inline variant on template 1. -/
def scenario_worker : mining_worker_t Nat :=
  { id := 0
    device_id := 0
    grid_size := 32
    block_size := 256
    host_hasher := hasher.inline_hasher scenario_hasher
    device_hasher := hasher.inline_hasher scenario_hasher
    is_inline_miner := true
    found_good_hash := true
    template_ptr := 1
    random_gen := 1000 }

/-- A worker of the reference variant on template 1. -/
def scenario_ref_worker : mining_worker_t Nat :=
  { scenario_worker with
    host_hasher := hasher.ref_hasher scenario_hasher
    device_hasher := hasher.ref_hasher scenario_hasher
    is_inline_miner := false }

/-- The hasher of the scenario after one reset from generator state 1000. -/
def scenario_hasher_after : blake3_hasher :=
  { buf := [232, 233, 234, 235, 236, 237, 238, 239, 240, 241, 242, 243,
            244, 245, 246, 247, 248, 249, 250, 251, 252, 253, 254, 255]
            ++ List.replicate 104 0
    hash := List.replicate 64 0
    target := List.replicate 31 0 ++ [1]
    from_group := 1
    to_group := 2
    hash_count := 0
    found_good_hash := false }

/-- The inline worker of the scenario after one reset. -/
def scenario_worker_after : mining_worker_t Nat :=
  { scenario_worker with
    host_hasher := hasher.inline_hasher scenario_hasher_after
    found_good_hash := false
    random_gen := 1024 }

/-- The reference worker of the scenario after one reset. -/
def scenario_ref_worker_after : mining_worker_t Nat :=
  { scenario_ref_worker with
    host_hasher := hasher.ref_hasher scenario_hasher_after
    found_good_hash := false
    random_gen := 1024 }

/-- The inline worker of the scenario after two resets in a row. -/
def scenario_worker_twice : mining_worker_t Nat :=
  { scenario_worker with
    host_hasher := hasher.inline_hasher
      { scenario_hasher_after with
        buf := [0, 1, 2, 3, 4, 5, 6, 7, 8, 9, 10, 11, 12, 13, 14, 15, 16, 17, 18, 19,
                20, 21, 22, 23] ++ List.replicate 104 0 }
    found_good_hash := false
    random_gen := 1048 }

/-- A job whose transactions take `2^32 - 29` bytes, with an empty header. -/
def wide_job : job_t :=
  { from_group := 0
    to_group := 0
    header_blob := { blob := [] }
    txs_blob := { blob := List.replicate 4294967267 0 }
    target := { blob := [1] } }

/-- The template of the wide job. -/
def wide_template : mining_template_t := { job := wide_job, ref_count := 1 }

/-- Template memory holding the wide template at address 1. -/
def wide_mem : template_mem := fun p =>
  if p = 1 then some wide_template else none

/-! ## Lemmas on the primitives -/

theorem store_byte_at_length (pre post : List Nat) (a v : Nat) :
    store_byte (pre ++ a :: post) pre.length v = some (pre ++ v :: post) := by
  unfold store_byte
  have hlt : pre.length < (pre ++ a :: post).length := by simp
  rw [if_pos hlt]
  congr 1
  induction pre with
  | nil => rfl
  | cons x xs ih =>
    have hx : xs.length < (xs ++ a :: post).length := by simp
    simp [ih hx]

theorem store_byte_length {a b : List Nat} {i v : Nat} (h : store_byte a i v = some b) :
    i < a.length ∧ b.length = a.length := by
  unfold store_byte at h
  split at h
  · rename_i hlt
    cases h
    exact ⟨hlt, by simp⟩
  · cases h

theorem draw_values_length {G : Type} (distrib : G → Nat × G) (n : Nat) (g : G) :
    (draw_values distrib n g).length = n := by
  induction n generalizing g with
  | zero => rfl
  | succ n ih => simp [draw_values, ih]

theorem draw_values_le {G : Type} (distrib : G → Nat × G)
    (hrange : ∀ g, (distrib g).1 ≤ 255) (n : Nat) (g : G) :
    ∀ v ∈ draw_values distrib n g, v ≤ 255 := by
  induction n generalizing g with
  | zero => intro v hv; simp [draw_values] at hv
  | succ n ih =>
    intro v hv
    simp only [draw_values, List.mem_cons] at hv
    rcases hv with rfl | hv
    · exact hrange g
    · exact ih _ v hv

theorem map_mod_of_le (l : List Nat) (h : ∀ v ∈ l, v ≤ 255) : l.map (· % 256) = l := by
  induction l with
  | nil => rfl
  | cons a t ih =>
    have ha : a ≤ 255 := h a (by simp)
    have ht : ∀ v ∈ t, v ≤ 255 := fun v hv => h v (by simp [hv])
    simp only [List.map_cons, ih ht]
    congr 1
    omega

theorem nonce_loop_append {G : Type} (distrib : G → Nat × G) (n : Nat) :
    ∀ (pre old post : List Nat) (gen : G), old.length = n →
      nonce_loop distrib n pre.length (pre ++ old ++ post) gen
        = some (pre ++ (draw_values distrib n gen).map (· % 256) ++ post,
                draw_state distrib n gen) := by
  induction n with
  | zero =>
    intro pre old post gen hlen
    have : old = [] := List.length_eq_zero.mp hlen
    subst this
    simp [nonce_loop, draw_values, draw_state]
  | succ n ih =>
    intro pre old post gen hlen
    cases old with
    | nil => simp at hlen
    | cons a old1 =>
      have hlen1 : old1.length = n := by simpa using hlen
      have hstore : store_byte (pre ++ a :: old1 ++ post) pre.length ((distrib gen).1 % 256)
          = some (pre ++ ((distrib gen).1 % 256) :: (old1 ++ post)) := by
        have := store_byte_at_length pre (old1 ++ post) a ((distrib gen).1 % 256)
        simpa using this
      have hrec := ih (pre ++ [(distrib gen).1 % 256]) old1 post (distrib gen).2 hlen1
      simp only [nonce_loop, hstore]
      simp only [List.length_append, List.length_singleton, List.append_assoc,
        List.singleton_append] at hrec
      simp only [draw_values, draw_state, List.map_cons, List.append_assoc, List.cons_append]
      simpa only [List.cons_append] using hrec

theorem nonce_loop_bound {G : Type} (distrib : G → Nat × G) (n : Nat) :
    ∀ (i : Nat) (buf : List Nat) (gen : G) (r : List Nat × G),
      nonce_loop distrib (n + 1) i buf gen = some r → i + (n + 1) ≤ buf.length := by
  induction n with
  | zero =>
    intro i buf gen r h
    simp only [nonce_loop] at h
    split at h
    · cases h
    · rename_i buf1 hs
      have := (store_byte_length hs).1
      omega
  | succ n ih =>
    intro i buf gen r h
    rw [nonce_loop] at h
    split at h
    · cases h
    · rename_i buf1 hs
      have hl := store_byte_length hs
      have := ih (i + 1) buf1 _ r h
      omega

/-- The nonce loop of `reset_worker` runs to its end exactly when the buffer
has 24 bytes, and then holds the 24 draws in front of the old tail. -/
theorem nonce_loop_24 {G : Type} (distrib : G → Nat × G) (buf : List Nat) (gen : G)
    (r : List Nat × G) :
    nonce_loop distrib 24 0 buf gen = some r ↔
      24 ≤ buf.length ∧
      r = ((draw_values distrib 24 gen).map (· % 256) ++ buf.drop 24,
           draw_state distrib 24 gen) := by
  constructor
  · intro h
    have hb : 0 + (23 + 1) ≤ buf.length := nonce_loop_bound distrib 23 0 buf gen r h
    have hb24 : 24 ≤ buf.length := by omega
    refine ⟨hb24, ?_⟩
    have hlen : (buf.take 24).length = 24 := by simp; omega
    have := nonce_loop_append distrib 24 [] (buf.take 24) (buf.drop 24) gen hlen
    simp only [List.length_nil, List.nil_append, List.take_append_drop] at this
    rw [this] at h
    exact (Option.some.inj h).symm
  · rintro ⟨hb24, rfl⟩
    have hlen : (buf.take 24).length = 24 := by simp; omega
    have := nonce_loop_append distrib 24 [] (buf.take 24) (buf.drop 24) gen hlen
    simpa only [List.length_nil, List.nil_append, List.take_append_drop] using this

theorem nonce_loop_24_none {G : Type} (distrib : G → Nat × G) (buf : List Nat) (gen : G)
    (h : ¬ 24 ≤ buf.length) : nonce_loop distrib 24 0 buf gen = none := by
  cases hr : nonce_loop distrib 24 0 buf gen with
  | none => rfl
  | some r => exact absurd ((nonce_loop_24 distrib buf gen r).mp hr).1 h

theorem memcpy_iff (dst : List Nat) (off : Nat) (src r : List Nat) :
    memcpy dst off src = some r ↔
      off + src.length ≤ dst.length ∧ r = dst.take off ++ src ++ dst.drop (off + src.length) := by
  unfold memcpy
  split
  · rename_i hle
    constructor
    · intro h; exact ⟨hle, (Option.some.inj h).symm⟩
    · rintro ⟨-, rfl⟩; rfl
  · rename_i hle
    constructor
    · intro h; cases h
    · rintro ⟨h1, -⟩; exact absurd h1 hle

theorem memset_iff (dst : List Nat) (v n : Nat) (r : List Nat) :
    memset dst v n = some r ↔ n ≤ dst.length ∧ r = List.replicate n v ++ dst.drop n := by
  unfold memset
  split
  · rename_i hle
    constructor
    · intro h; exact ⟨hle, (Option.some.inj h).symm⟩
    · rintro ⟨-, rfl⟩; rfl
  · rename_i hle
    constructor
    · intro h; cases h
    · rintro ⟨h1, -⟩; exact absurd h1 hle

/-- Overwriting `src.length` bytes right after a block `pre` of known length. -/
theorem splice_after (pre old src : List Nat) (k : Nat) (hk : pre.length = k) :
    (pre ++ old).take k ++ src ++ (pre ++ old).drop (k + src.length)
      = pre ++ src ++ old.drop src.length := by
  subst hk
  rw [List.take_left, List.drop_append]

/-- What one arm of `reset_worker` does: it returns exactly when the buffer
holds the nonce and the header, both assertions pass and the target field
holds the padded target, and then every field it returns is determined. -/
theorem reset_hasher_iff {G : Type} (LEN CAP : Nat) (distrib : G → Nat × G) (job : job_t)
    (h : blake3_hasher) (gen : G) (r : blake3_hasher × G) :
    reset_hasher LEN CAP distrib job h gen = some r ↔
      24 + job.header_blob.len ≤ h.buf.length ∧
      24 + job.header_blob.len = LEN ∧
      asserted_cap (24 + job.header_blob.len) = CAP ∧
      target_zero_len job.target.len + job.target.len ≤ h.target.length ∧
      r = (hasher_after_reset distrib job h gen, draw_state distrib 24 gen) := by
  unfold hasher_after_reset
  have hdl : ((draw_values distrib 24 gen).map (· % 256)).length = 24 := by
    simp [draw_values_length]
  have hrl : (List.replicate (target_zero_len job.target.blob.length) 0).length
      = target_zero_len job.target.blob.length := List.length_replicate _ _
  have hbuf : ∀ buf1 buf2 : List Nat,
      buf1 = (draw_values distrib 24 gen).map (· % 256) ++ h.buf.drop 24 →
      buf2 = buf1.take 24 ++ job.header_blob.blob
              ++ buf1.drop (24 + job.header_blob.blob.length) →
      buf2 = (draw_values distrib 24 gen).map (· % 256) ++ job.header_blob.blob
              ++ h.buf.drop (24 + job.header_blob.blob.length) := by
    intro buf1 buf2 h1 h2
    rw [h2, h1, splice_after _ _ _ 24 hdl, List.drop_drop]
  have htgt : ∀ t1 t2 : List Nat,
      t1 = List.replicate (target_zero_len job.target.blob.length) 0
            ++ h.target.drop (target_zero_len job.target.blob.length) →
      t2 = t1.take (target_zero_len job.target.blob.length) ++ job.target.blob
            ++ t1.drop (target_zero_len job.target.blob.length + job.target.blob.length) →
      t2 = List.replicate (target_zero_len job.target.blob.length) 0 ++ job.target.blob
            ++ h.target.drop (target_zero_len job.target.blob.length
                                + job.target.blob.length) := by
    intro t1 t2 h1 h2
    rw [h2, h1, splice_after _ _ _ _ hrl, List.drop_drop]
  simp only [blob_t.len]
  constructor
  · intro hr
    unfold reset_hasher at hr
    simp only [blob_t.len] at hr
    split at hr
    · cases hr
    · rename_i buf1 gen1 hloop
      obtain ⟨hb24, hpair⟩ := (nonce_loop_24 distrib h.buf gen _).mp hloop
      obtain ⟨rfl, rfl⟩ := Prod.mk.inj hpair
      split at hr
      · cases hr
      · rename_i buf2 hcopy
        obtain ⟨hc, hbuf2⟩ := (memcpy_iff _ _ _ _).mp hcopy
        rw [List.length_append, hdl, List.length_drop] at hc
        split at hr
        · cases hr
        · rename_i hl
          split at hr
          · cases hr
          · rename_i hp
            split at hr
            · cases hr
            · rename_i target1 hset
              obtain ⟨hz, ht1⟩ := (memset_iff _ _ _ _).mp hset
              split at hr
              · cases hr
              · rename_i target2 hcopy2
                obtain ⟨hc2, ht2⟩ := (memcpy_iff _ _ _ _).mp hcopy2
                rw [ht1, List.length_append, hrl, List.length_drop] at hc2
                refine ⟨by omega, not_not.mp hl, not_not.mp hp, by omega, ?_⟩
                rw [← Option.some.inj hr, hbuf _ buf2 rfl hbuf2, htgt target1 target2 ht1 ht2]
  · rintro ⟨h1, h2, h3, h4, rfl⟩
    have hloop := (nonce_loop_24 distrib h.buf gen _).mpr ⟨(by omega : 24 ≤ h.buf.length), rfl⟩
    have hcopy := (memcpy_iff ((draw_values distrib 24 gen).map (· % 256) ++ h.buf.drop 24) 24
      job.header_blob.blob _).mpr
        ⟨by rw [List.length_append, hdl, List.length_drop]; omega, rfl⟩
    have hset := (memset_iff h.target 0 (target_zero_len job.target.blob.length) _).mpr
      ⟨by omega, rfl⟩
    have hcopy2 := (memcpy_iff (List.replicate (target_zero_len job.target.blob.length) 0
        ++ h.target.drop (target_zero_len job.target.blob.length))
      (target_zero_len job.target.blob.length) job.target.blob _).mpr
        ⟨by rw [List.length_append, hrl, List.length_drop]; omega, rfl⟩
    unfold reset_hasher
    simp only [blob_t.len]
    rw [hloop]
    simp only []
    rw [hcopy]
    simp only []
    rw [if_neg (not_not.mpr h2), if_neg (not_not.mpr h3), hset]
    simp only []
    rw [hcopy2]
    simp only []
    rw [hbuf _ _ rfl rfl, htgt _ _ rfl rfl]

/-- The two arms of `reset_worker` are the shared statements run on the
member of the union that `is_inline_miner` names. -/
theorem reset_worker_arms {G : Type} (LEN CAP : Nat) (uid : Nat → Nat → G → Nat × G)
    (mem : template_mem) (w : mining_worker_t G) :
    reset_worker LEN CAP uid mem w
      = match mem w.template_ptr with
        | none => none
        | some t =>
          match host_hasher_of w with
          | none => none
          | some h =>
            (reset_hasher LEN CAP (uid 0 UINT8_MAX) t.job h w.random_gen).map fun r =>
              { w with
                host_hasher := w.host_hasher.with_state r.1
                random_gen := r.2
                found_good_hash := false } := by
  unfold reset_worker host_hasher_of reset_hasher store_worker_found_good_hash
  cases mem w.template_ptr with
  | none => rfl
  | some t =>
    cases hi : w.is_inline_miner <;> cases hh : w.host_hasher <;>
      simp only [hasher.with_state, if_true, if_false, Bool.false_eq_true] <;>
      repeat (first | rfl | split)

/-- What `reset_worker` does, in terms of the host hasher it selects. -/
theorem reset_worker_iff {G : Type} (LEN CAP : Nat) (uid : Nat → Nat → G → Nat × G)
    (mem : template_mem) (w w1 : mining_worker_t G) :
    reset_worker LEN CAP uid mem w = some w1 ↔
      ∃ t h r, mem w.template_ptr = some t ∧ host_hasher_of w = some h ∧
        reset_hasher LEN CAP (uid 0 UINT8_MAX) t.job h w.random_gen = some r ∧
        w1 = { w with
                host_hasher := w.host_hasher.with_state r.1
                random_gen := r.2
                found_good_hash := false } := by
  rw [reset_worker_arms]
  constructor
  · intro h
    split at h
    · cases h
    · rename_i t hm
      split at h
      · cases h
      · rename_i h0 hh
        cases hr : reset_hasher LEN CAP (uid 0 UINT8_MAX) t.job h0 w.random_gen with
        | none => rw [hr] at h; cases h
        | some r =>
          rw [hr] at h
          exact ⟨t, h0, r, hm, hh, hr, (Option.some.inj h).symm⟩
  · rintro ⟨t, h0, r, hm, hh, hr, rfl⟩
    simp only [hm, hh, hr, Option.map_some']

theorem host_buf_eq {G : Type} (w : mining_worker_t G) :
    host_buf w = (host_hasher_of w).map (·.buf) := by
  unfold host_buf host_hasher_of
  cases w.is_inline_miner <;> cases w.host_hasher <;> rfl

theorem host_hasher_of_with_state {G : Type} (w : mining_worker_t G) (h h1 : blake3_hasher)
    (g : G) (f : Bool) (hw : host_hasher_of w = some h) :
    host_hasher_of { w with
                      host_hasher := w.host_hasher.with_state h1
                      random_gen := g
                      found_good_hash := f } = some h1 := by
  unfold host_hasher_of at hw ⊢
  cases hi : w.is_inline_miner <;> cases hh : w.host_hasher <;>
    simp [hi, hh, hasher.with_state] at hw ⊢

/-- A successful `reset_worker`, spelled out. -/
theorem reset_worker_some {G : Type} {LEN CAP : Nat} {uid : Nat → Nat → G → Nat × G}
    {mem : template_mem} {w w1 : mining_worker_t G}
    (hreset : reset_worker LEN CAP uid mem w = some w1) :
    ∃ t h, mem w.template_ptr = some t ∧ host_hasher_of w = some h ∧
      24 + t.job.header_blob.len ≤ h.buf.length ∧
      24 + t.job.header_blob.len = LEN ∧
      asserted_cap (24 + t.job.header_blob.len) = CAP ∧
      target_zero_len t.job.target.len + t.job.target.len ≤ h.target.length ∧
      host_hasher_of w1 = some (hasher_after_reset (uid 0 UINT8_MAX) t.job h w.random_gen) ∧
      w1 = { w with
              host_hasher :=
                w.host_hasher.with_state (hasher_after_reset (uid 0 UINT8_MAX) t.job h w.random_gen)
              random_gen := draw_state (uid 0 UINT8_MAX) 24 w.random_gen
              found_good_hash := false } := by
  obtain ⟨t, h, r, hm, hh, hr, hw⟩ := (reset_worker_iff LEN CAP uid mem w w1).mp hreset
  obtain ⟨h1, h2, h3, h4, rfl⟩ := (reset_hasher_iff LEN CAP (uid 0 UINT8_MAX) t.job h w.random_gen r).mp hr
  refine ⟨t, h, hm, hh, h1, h2, h3, h4, ?_, hw⟩
  rw [hw]
  exact host_hasher_of_with_state w h _ _ _ hh

/-- When `reset_worker` returns: on a valid template, with the hasher of the
variant the worker runs, a buffer and target field large enough, and both
assertions true. -/
theorem reset_worker_returns {G : Type} (LEN CAP : Nat) (uid : Nat → Nat → G → Nat × G)
    (mem : template_mem) (w : mining_worker_t G) (t : mining_template_t) (h : blake3_hasher)
    (hm : mem w.template_ptr = some t) (hh : host_hasher_of w = some h)
    (h1 : 24 + t.job.header_blob.len ≤ h.buf.length)
    (h2 : 24 + t.job.header_blob.len = LEN)
    (h3 : asserted_cap (24 + t.job.header_blob.len) = CAP)
    (h4 : target_zero_len t.job.target.len + t.job.target.len ≤ h.target.length) :
    reset_worker LEN CAP uid mem w
      = some { w with
                host_hasher :=
                  w.host_hasher.with_state (hasher_after_reset (uid 0 UINT8_MAX) t.job h w.random_gen)
                random_gen := draw_state (uid 0 UINT8_MAX) 24 w.random_gen
                found_good_hash := false } :=
  (reset_worker_iff LEN CAP uid mem w _).mpr
    ⟨t, h, _, hm, hh,
      (reset_hasher_iff LEN CAP (uid 0 UINT8_MAX) t.job h w.random_gen _).mpr ⟨h1, h2, h3, h4, rfl⟩, rfl⟩

theorem target_zero_len_of_le {len : Nat} (h : len ≤ 32) : target_zero_len len = 32 - len := by
  unfold target_zero_len
  omega

theorem asserted_cap_least (m : Nat) :
    64 ∣ asserted_cap m ∧ m ≤ asserted_cap m ∧ asserted_cap m < m + 64 ∧
      ∀ k, 64 ∣ k → m ≤ k → asserted_cap m ≤ k := by
  unfold asserted_cap
  refine ⟨Nat.dvd_mul_left 64 _, by omega, by omega, ?_⟩
  rintro k ⟨c, rfl⟩ hk
  have : (m + 63) / 64 ≤ c := by omega
  omega

theorem hasher_after_reset_buf_length {G : Type} (distrib : G → Nat × G) (job : job_t)
    (h : blake3_hasher) (g : G) (h1 : 24 + job.header_blob.len ≤ h.buf.length) :
    (hasher_after_reset distrib job h g).buf.length = h.buf.length := by
  simp only [hasher_after_reset, List.length_append, List.length_map, draw_values_length,
    List.length_drop, blob_t.len] at h1 ⊢
  omega

theorem hasher_after_reset_target_length {G : Type} (distrib : G → Nat × G) (job : job_t)
    (h : blake3_hasher) (g : G)
    (h4 : target_zero_len job.target.len + job.target.len ≤ h.target.length) :
    (hasher_after_reset distrib job h g).target.length = h.target.length := by
  simp only [hasher_after_reset, List.length_append, List.length_replicate,
    List.length_drop, blob_t.len] at h4 ⊢
  omega

/-- A second reset on the same job only redraws the nonce. -/
theorem hasher_after_reset_twice {G : Type} (distrib : G → Nat × G) (job : job_t)
    (h : blake3_hasher) (g g2 : G) :
    hasher_after_reset distrib job (hasher_after_reset distrib job h g) g2
      = { hasher_after_reset distrib job h g with
          buf := (draw_values distrib 24 g2).map (· % 256)
                  ++ (hasher_after_reset distrib job h g).buf.drop 24 } := by
  have hdl : ((draw_values distrib 24 g).map (· % 256)).length = 24 := by
    simp [draw_values_length]
  have hpre : ((draw_values distrib 24 g).map (· % 256) ++ job.header_blob.blob).length
      = 24 + job.header_blob.len := by
    rw [List.length_append, hdl]
    rfl
  have hrl : (List.replicate (target_zero_len job.target.len) (0 : Nat)
      ++ job.target.blob).length = target_zero_len job.target.len + job.target.len := by
    rw [List.length_append, List.length_replicate]
    rfl
  have hb24 : ((draw_values distrib 24 g).map (· % 256) ++ job.header_blob.blob
        ++ h.buf.drop (24 + job.header_blob.len)).drop 24
      = job.header_blob.blob ++ h.buf.drop (24 + job.header_blob.len) := by
    rw [List.append_assoc]
    exact List.drop_left' hdl
  have hbl : ((draw_values distrib 24 g).map (· % 256) ++ job.header_blob.blob
        ++ h.buf.drop (24 + job.header_blob.len)).drop (24 + job.header_blob.len)
      = h.buf.drop (24 + job.header_blob.len) := List.drop_left' hpre
  have htl : (List.replicate (target_zero_len job.target.len) (0 : Nat) ++ job.target.blob
        ++ h.target.drop (target_zero_len job.target.len + job.target.len)).drop
          (target_zero_len job.target.len + job.target.len)
      = h.target.drop (target_zero_len job.target.len + job.target.len) :=
    List.drop_left' hrl
  simp only [hasher_after_reset]
  rw [hb24, hbl, htl]
  simp only [List.append_assoc]

/-! ## Lemmas on `write_new_block` -/

theorem write_size_length (pos : List Nat) (n : Nat) :
    (write_size pos n).length = pos.length + 4 := by
  simp [write_size]

theorem write_size_nil_bytes (n : Nat) :
    (write_size [] n).length = 4 ∧ (∀ x ∈ write_size [] n, x < 256) ∧
      be_value (write_size [] n) = n % 4294967296 := by
  refine ⟨by simp [write_size], ?_, ?_⟩
  · intro x hx
    simp only [write_size, List.nil_append, List.mem_cons, List.mem_singleton,
      List.not_mem_nil, or_false] at hx
    rcases hx with rfl | rfl | rfl | rfl <;> omega
  · simp only [write_size, be_value, List.nil_append, List.foldl_cons, List.foldl_nil]
    omega

theorem read_size_write_size (n : Nat) (rest : List Nat) :
    read_size (write_size [] n ++ rest) = some (n % 4294967296, rest) := by
  simp only [write_size, read_size, List.nil_append, List.cons_append]
  congr 2
  omega

/-- The function `write_new_block` returns on a valid template and a host
buffer of at least 24 bytes, and this is what it writes and returns. -/
theorem write_new_block_eq {G : Type} (mem : template_mem) (w : mining_worker_t G)
    (t : mining_template_t) (b : List Nat)
    (hmem : mem (load_worker__template w) = some t)
    (hbuf : host_buf w = some b) (hb : 24 ≤ b.length) :
    write_new_block mem w
      = some (write_size [] (1 + 4 + (24 + t.job.header_blob.len + t.job.txs_blob.len))
                ++ [0]
                ++ write_size [] (24 + t.job.header_blob.len + t.job.txs_blob.len)
                ++ b.take 24 ++ t.job.header_blob.blob ++ t.job.txs_blob.blob,
              1 + 4 + (24 + t.job.header_blob.len + t.job.txs_blob.len) + 4) := by
  unfold write_new_block
  rw [hmem]
  simp only [hbuf, write_bytes, if_pos hb, write_blob, write_byte, write_size,
    List.nil_append, List.append_assoc, List.cons_append, Nat.zero_mod]

theorem read_bytes_append (n rest : List Nat) :
    read_bytes n.length (n ++ rest) = some (n, rest) := by
  unfold read_bytes
  rw [if_pos (by simp), List.take_left, List.drop_left]

/-- Parsing a message laid out in the wire format gives its fields back, the
two length fields reduced modulo `2^32`. -/
theorem parse_new_block_layout (a ty c : Nat) (n h t : List Nat) (hn : n.length = 24) :
    parse_new_block h.length (write_size [] a ++ [ty] ++ write_size [] c ++ n ++ h ++ t)
      = some { message_length := a % 4294967296
               message_type := ty
               block_length := c % 4294967296
               nonce := n
               header := h
               txs := t } := by
  have e1 : write_size [] a ++ [ty] ++ write_size [] c ++ n ++ h ++ t
      = write_size [] a ++ (ty :: (write_size [] c ++ (n ++ (h ++ t)))) := by
    simp only [List.append_assoc, List.singleton_append, List.cons_append, List.nil_append]
  have r3 : read_bytes 24 (n ++ (h ++ t)) = some (n, h ++ t) := by
    rw [← hn]
    exact read_bytes_append n (h ++ t)
  unfold parse_new_block
  rw [e1, read_size_write_size]
  simp only []
  rw [read_size_write_size]
  simp only []
  rw [r3]
  simp only []
  rw [read_bytes_append]

/-! ## Lemma on `setup_template` -/

theorem setup_template_eq {G : Type} (mem : template_mem) (w : mining_worker_t G)
    (T : Nat) (t : mining_template_t) (hT : mem T = some t) :
    setup_template mem w T
      = some (fun p => if p = T then some { t with ref_count := t.ref_count + 1 } else mem p,
              store_worker__template w T) := by
  simp only [setup_template, add_template__ref_count, hT]

/-! ## The scenario, evaluated -/

set_option maxRecDepth 8000 in
theorem scenario_reset :
    reset_worker 74 128 counter_uniform scenario_mem scenario_worker
      = some scenario_worker_after := by
  rfl

set_option maxRecDepth 8000 in
theorem scenario_ref_reset :
    reset_worker 74 128 counter_uniform scenario_mem scenario_ref_worker
      = some scenario_ref_worker_after := by
  rfl

/-- The stand-in library meets the contract of the standard: a draw of the
distribution with bounds `a ≤ b` lies between `a` and `b`. -/
theorem counter_uniform_contract (a b g : Nat) (hab : a ≤ b) :
    a ≤ (counter_uniform a b g).1 ∧ (counter_uniform a b g).1 ≤ b := by
  have hlt : g % (b - a + 1) < b - a + 1 := Nat.mod_lt g (Nat.succ_pos _)
  unfold counter_uniform
  simp only
  omega

/-! ## Claims on `reset_worker` -/

/-- C5: after `reset_worker` returns, for either hasher variant and whatever
the state before, the worker-level found flag reads false, and the host
hasher has `found_good_hash` false and `hash_count` zero. -/
theorem reset_worker_clears_flags {G : Type} (LEN CAP : Nat) (uid : Nat → Nat → G → Nat × G)
    (mem : template_mem) (w w1 : mining_worker_t G)
    (hreset : reset_worker LEN CAP uid mem w = some w1) :
    load_worker__found_good_hash w1 = false ∧
      ∃ h1, host_hasher_of w1 = some h1 ∧ h1.found_good_hash = false ∧ h1.hash_count = 0 := by
  obtain ⟨t, h, -, -, -, -, -, -, hh1, hw⟩ := reset_worker_some hreset
  refine ⟨?_, _, hh1, rfl, rfl⟩
  rw [hw]
  rfl

/-- Witness for C5: the inline worker of the scenario, whose flags were set and whose count was 7 before the reset. -/
theorem reset_worker_clears_flags_witness :
    reset_worker 74 128 counter_uniform scenario_mem scenario_worker
        = some scenario_worker_after ∧
      load_worker__found_good_hash scenario_worker_after = false ∧
      ∃ h1, host_hasher_of scenario_worker_after = some h1 ∧
        h1.found_good_hash = false ∧ h1.hash_count = 0 :=
  ⟨scenario_reset,
    reset_worker_clears_flags 74 128 counter_uniform scenario_mem scenario_worker
      scenario_worker_after scenario_reset⟩

/-- C6: after `reset_worker` on a worker whose job has a target of length
`L ≤ 32`, the 32-byte target field of the host hasher is `32 - L` zero bytes
followed by the target bytes of the job in order, whatever it held before,
and is still 32 bytes long. -/
theorem reset_worker_pads_target {G : Type} (LEN CAP : Nat) (uid : Nat → Nat → G → Nat × G)
    (mem : template_mem) (w w1 : mining_worker_t G) (t : mining_template_t)
    (h : blake3_hasher)
    (hreset : reset_worker LEN CAP uid mem w = some w1)
    (hmem : mem (load_worker__template w) = some t)
    (hh : host_hasher_of w = some h)
    (hfield : h.target.length = 32)
    (hL : t.job.target.len ≤ 32) :
    ∃ h1, host_hasher_of w1 = some h1 ∧
      h1.target = List.replicate (32 - t.job.target.len) 0 ++ t.job.target.blob ∧
      h1.target.length = 32 ∧
      h1.target.take (32 - t.job.target.len) = List.replicate (32 - t.job.target.len) 0 ∧
      h1.target.drop (32 - t.job.target.len) = t.job.target.blob := by
  obtain ⟨t0, h0, hm0, hh0, -, -, -, -, hh1, -⟩ := reset_worker_some hreset
  have ht : t0 = t := Option.some.inj (hm0.symm.trans hmem)
  have hh' : h0 = h := Option.some.inj (hh0.symm.trans hh)
  subst ht hh'
  have htgt : (hasher_after_reset (uid 0 UINT8_MAX) t0.job h0 w.random_gen).target
      = List.replicate (32 - t0.job.target.len) 0 ++ t0.job.target.blob := by
    have hdrop : h0.target.drop (32 - t0.job.target.len + t0.job.target.len) = [] :=
      List.drop_of_length_le (by omega)
    simp only [hasher_after_reset, target_zero_len_of_le hL, hdrop, List.append_nil]
  have hrl : (List.replicate (32 - t0.job.target.len) (0 : Nat)).length
      = 32 - t0.job.target.len := List.length_replicate _ _
  refine ⟨_, hh1, htgt, ?_, ?_, ?_⟩
  · rw [htgt, List.length_append, hrl]
    unfold blob_t.len at hL ⊢
    omega
  · rw [htgt]
    exact List.take_left' hrl
  · rw [htgt]
    exact List.drop_left' hrl

/-- Witness for C6: the one-byte target `0x01` of the scenario, over a field that held 32 bytes `0xff`. -/
theorem reset_worker_pads_target_witness :
    reset_worker 74 128 counter_uniform scenario_mem scenario_worker
        = some scenario_worker_after ∧
      scenario_hasher.target.length = 32 ∧
      scenario_job.target.len ≤ 32 ∧
      ∃ h1, host_hasher_of scenario_worker_after = some h1 ∧
        h1.target = List.replicate (32 - scenario_job.target.len) 0
                      ++ scenario_job.target.blob ∧
        h1.target.length = 32 ∧
        h1.target.take (32 - scenario_job.target.len)
          = List.replicate (32 - scenario_job.target.len) 0 ∧
        h1.target.drop (32 - scenario_job.target.len) = scenario_job.target.blob :=
  ⟨scenario_reset, by decide, by decide,
    reset_worker_pads_target 74 128 counter_uniform scenario_mem scenario_worker
      scenario_worker_after { job := scenario_job, ref_count := 0 } scenario_hasher
      scenario_reset rfl rfl (by decide) (by decide)⟩

/-- C7: after a `reset_worker` whose assertions pass, the host input buffer
holds at offsets 0..23 the 24 values drawn in order from the generator of
the worker, each in the range 0..255, then the header bytes of the job at
offsets 24..24+len-1, and every byte from offset 24+len on is the byte that
was there before; the generator is left in the state after the 24 draws.
The range 0..255 comes from the bounds `0` and `UINT8_MAX` with which
`reset_worker` constructs its distribution; of the library only the
guarantee of the standard is used, that a draw of a distribution
constructed with `a ≤ b` lies between `a` and `b`. -/
theorem reset_worker_fills_buffer {G : Type} (LEN CAP : Nat)
    (uid : Nat → Nat → G → Nat × G)
    (mem : template_mem) (w w1 : mining_worker_t G) (t : mining_template_t)
    (h : blake3_hasher)
    (hlib : ∀ a b g, a ≤ b → a ≤ (uid a b g).1 ∧ (uid a b g).1 ≤ b)
    (hreset : reset_worker LEN CAP uid mem w = some w1)
    (hmem : mem (load_worker__template w) = some t)
    (hh : host_hasher_of w = some h) :
    ∃ h1, host_hasher_of w1 = some h1 ∧
      h1.buf = draw_values (uid 0 UINT8_MAX) 24 w.random_gen ++ t.job.header_blob.blob
                ++ h.buf.drop (24 + t.job.header_blob.len) ∧
      (draw_values (uid 0 UINT8_MAX) 24 w.random_gen).length = 24 ∧
      (∀ v ∈ draw_values (uid 0 UINT8_MAX) 24 w.random_gen, 0 ≤ v ∧ v ≤ 255) ∧
      h1.buf.take 24 = draw_values (uid 0 UINT8_MAX) 24 w.random_gen ∧
      (h1.buf.drop 24).take t.job.header_blob.len = t.job.header_blob.blob ∧
      h1.buf.length = h.buf.length ∧
      (∀ i, 24 + t.job.header_blob.len ≤ i → h1.buf[i]? = h.buf[i]?) ∧
      w1.random_gen = draw_state (uid 0 UINT8_MAX) 24 w.random_gen := by
  obtain ⟨t0, h0, hm0, hh0, hlen, -, -, -, hh1, hw⟩ := reset_worker_some hreset
  have ht : t0 = t := Option.some.inj (hm0.symm.trans hmem)
  have hh' : h0 = h := Option.some.inj (hh0.symm.trans hh)
  subst ht hh'
  have hrange : ∀ g, (uid 0 UINT8_MAX g).1 ≤ 255 := fun g =>
    (hlib 0 UINT8_MAX g (Nat.zero_le UINT8_MAX)).2
  have hdl := draw_values_length (uid 0 UINT8_MAX) 24 w.random_gen
  have hle := draw_values_le (uid 0 UINT8_MAX) hrange 24 w.random_gen
  have hbuf : (hasher_after_reset (uid 0 UINT8_MAX) t0.job h0 w.random_gen).buf
      = draw_values (uid 0 UINT8_MAX) 24 w.random_gen ++ t0.job.header_blob.blob
          ++ h0.buf.drop (24 + t0.job.header_blob.len) := by
    simp only [hasher_after_reset, map_mod_of_le _ hle]
  have hpre :
      (draw_values (uid 0 UINT8_MAX) 24 w.random_gen ++ t0.job.header_blob.blob).length
        = 24 + t0.job.header_blob.len := by
    rw [List.length_append, hdl]
    rfl
  refine ⟨_, hh1, hbuf, hdl, fun v hv => ⟨Nat.zero_le v, hle v hv⟩, ?_, ?_, ?_, ?_, ?_⟩
  · rw [hbuf, List.append_assoc]
    exact List.take_left' hdl
  · rw [hbuf, List.append_assoc, List.drop_left' hdl]
    exact List.take_left' rfl
  · rw [hbuf, List.length_append, hpre, List.length_drop]
    omega
  · intro i hi
    rw [hbuf, List.getElem?_append_right (by omega), hpre, List.getElem?_drop]
    congr 1
    omega
  · rw [hw]

/-- Witness for C7: the reference worker of the scenario, generator state
1000 before the reset, with the counter library. -/
theorem reset_worker_fills_buffer_witness :
    (∀ a b g, a ≤ b → a ≤ (counter_uniform a b g).1 ∧ (counter_uniform a b g).1 ≤ b) ∧
      reset_worker 74 128 counter_uniform scenario_mem scenario_ref_worker
        = some scenario_ref_worker_after ∧
      ∃ h1, host_hasher_of scenario_ref_worker_after = some h1 ∧
        h1.buf = draw_values (counter_uniform 0 UINT8_MAX) 24 scenario_ref_worker.random_gen
                  ++ scenario_job.header_blob.blob
                  ++ scenario_hasher.buf.drop (24 + scenario_job.header_blob.len) ∧
        (draw_values (counter_uniform 0 UINT8_MAX) 24
          scenario_ref_worker.random_gen).length = 24 ∧
        (∀ v ∈ draw_values (counter_uniform 0 UINT8_MAX) 24 scenario_ref_worker.random_gen,
          0 ≤ v ∧ v ≤ 255) ∧
        h1.buf.take 24
          = draw_values (counter_uniform 0 UINT8_MAX) 24 scenario_ref_worker.random_gen ∧
        (h1.buf.drop 24).take scenario_job.header_blob.len = scenario_job.header_blob.blob ∧
        h1.buf.length = scenario_hasher.buf.length ∧
        (∀ i, 24 + scenario_job.header_blob.len ≤ i →
          h1.buf[i]? = scenario_hasher.buf[i]?) ∧
        scenario_ref_worker_after.random_gen
          = draw_state (counter_uniform 0 UINT8_MAX) 24 scenario_ref_worker.random_gen :=
  ⟨counter_uniform_contract, scenario_ref_reset,
    reset_worker_fills_buffer 74 128 counter_uniform scenario_mem scenario_ref_worker
      scenario_ref_worker_after { job := scenario_job, ref_count := 0 } scenario_hasher
      counter_uniform_contract scenario_ref_reset rfl rfl⟩

/-- C9: whenever both assertions of `reset_worker` pass for a job whose
header has length `n`, `BLAKE3_BUF_LEN` is `24 + n` and `BLAKE3_BUF_CAP` is
the smallest multiple of 64 that is at least `24 + n`; and for every natural
`m` the asserted expression `(m + 63) / 64 * 64` is a multiple of 64, is at
least `m` and is below `m + 64`. -/
theorem reset_worker_asserted_sizes {G : Type} (LEN CAP : Nat) (uid : Nat → Nat → G → Nat × G)
    (mem : template_mem) (w w1 : mining_worker_t G) (t : mining_template_t)
    (hreset : reset_worker LEN CAP uid mem w = some w1)
    (hmem : mem (load_worker__template w) = some t) :
    LEN = 24 + t.job.header_blob.len ∧
      CAP = (24 + t.job.header_blob.len + 63) / 64 * 64 ∧
      64 ∣ CAP ∧ 24 + t.job.header_blob.len ≤ CAP ∧ CAP < 24 + t.job.header_blob.len + 64 ∧
      (∀ k, 64 ∣ k → 24 + t.job.header_blob.len ≤ k → CAP ≤ k) ∧
      ∀ m, asserted_cap m = (m + 63) / 64 * 64 ∧
        64 ∣ asserted_cap m ∧ m ≤ asserted_cap m ∧ asserted_cap m < m + 64 := by
  obtain ⟨t0, h0, hm0, -, -, hl, hc, -, -, -⟩ := reset_worker_some hreset
  have ht : t0 = t := Option.some.inj (hm0.symm.trans hmem)
  subst ht
  obtain ⟨h1, h2, h3, h4⟩ := asserted_cap_least (24 + t0.job.header_blob.len)
  rw [hc] at h1 h2 h3 h4
  refine ⟨hl.symm, hc.symm, h1, h2, h3, h4, ?_⟩
  intro m
  obtain ⟨m1, m2, m3, -⟩ := asserted_cap_least m
  exact ⟨rfl, m1, m2, m3⟩

/-- Witness for C9: a header of 50 bytes, content length 74, capacity 128. -/
theorem reset_worker_asserted_sizes_witness :
    reset_worker 74 128 counter_uniform scenario_mem scenario_worker
        = some scenario_worker_after ∧
      scenario_job.header_blob.len = 50 ∧
      (74 = 24 + scenario_job.header_blob.len ∧
        128 = (24 + scenario_job.header_blob.len + 63) / 64 * 64 ∧
        64 ∣ 128 ∧ 24 + scenario_job.header_blob.len ≤ 128 ∧
        128 < 24 + scenario_job.header_blob.len + 64 ∧
        (∀ k, 64 ∣ k → 24 + scenario_job.header_blob.len ≤ k → 128 ≤ k) ∧
        ∀ m, asserted_cap m = (m + 63) / 64 * 64 ∧
          64 ∣ asserted_cap m ∧ m ≤ asserted_cap m ∧ asserted_cap m < m + 64) :=
  ⟨scenario_reset, by decide,
    reset_worker_asserted_sizes 74 128 counter_uniform scenario_mem scenario_worker
      scenario_worker_after { job := scenario_job, ref_count := 0 } scenario_reset rfl⟩

set_option maxRecDepth 8000 in
theorem scenario_reset_again :
    reset_worker 74 128 counter_uniform scenario_mem scenario_worker_after
      = some scenario_worker_twice := by
  rfl

/-- C8, as stated, fails: in the scenario the second of two resets in a row
draws 24 further values, so the nonce bytes and the generator state after
two resets are not those after one. -/
theorem reset_worker_not_idempotent :
    (reset_worker 74 128 counter_uniform scenario_mem scenario_worker).bind
        (reset_worker 74 128 counter_uniform scenario_mem)
      ≠ reset_worker 74 128 counter_uniform scenario_mem scenario_worker := by
  rw [scenario_reset, Option.some_bind, scenario_reset_again]
  intro h
  have hgen := congrArg (Option.map mining_worker_t.random_gen) h
  revert hgen
  decide

/-- C8, amended: after a reset that returned, a second reset in a row
returns as well and leaves the worker as the first left it (template
pointer, found flags, hash count, target, groups, buffer from offset 24 on)
except that the 24 nonce bytes are drawn afresh and the generator has
advanced by these 24 draws. -/
theorem reset_worker_twice {G : Type} (LEN CAP : Nat) (uid : Nat → Nat → G → Nat × G)
    (mem : template_mem) (w w1 : mining_worker_t G)
    (hreset : reset_worker LEN CAP uid mem w = some w1) :
    ∃ h1, host_hasher_of w1 = some h1 ∧
      reset_worker LEN CAP uid mem w1
        = some { w1 with
                  host_hasher := w1.host_hasher.with_state
                    { h1 with
                      buf := (draw_values (uid 0 UINT8_MAX) 24 w1.random_gen).map (· % 256)
                              ++ h1.buf.drop 24 }
                  random_gen := draw_state (uid 0 UINT8_MAX) 24 w1.random_gen } := by
  obtain ⟨t, h, hm, hh, c1, c2, c3, c4, hh1, hw⟩ := reset_worker_some hreset
  refine ⟨_, hh1, ?_⟩
  have hm1 : mem w1.template_ptr = some t := by rw [hw]; exact hm
  have hfound : w1.found_good_hash = false := by rw [hw]
  have d1 : 24 + t.job.header_blob.len
      ≤ (hasher_after_reset (uid 0 UINT8_MAX) t.job h w.random_gen).buf.length := by
    rw [hasher_after_reset_buf_length (uid 0 UINT8_MAX) t.job h w.random_gen c1]
    exact c1
  have d4 : target_zero_len t.job.target.len + t.job.target.len
      ≤ (hasher_after_reset (uid 0 UINT8_MAX) t.job h w.random_gen).target.length := by
    rw [hasher_after_reset_target_length (uid 0 UINT8_MAX) t.job h w.random_gen c4]
    exact c4
  rw [reset_worker_returns LEN CAP uid mem w1 t _ hm1 hh1 d1 c2 c3 d4,
    hasher_after_reset_twice]
  congr 1
  cases w1
  simp only at hfound
  subst hfound
  rfl

/-- Witness for C8 as amended: the inline worker of the scenario, reset twice. -/
theorem reset_worker_twice_witness :
    reset_worker 74 128 counter_uniform scenario_mem scenario_worker
        = some scenario_worker_after ∧
      ∃ h1, host_hasher_of scenario_worker_after = some h1 ∧
        reset_worker 74 128 counter_uniform scenario_mem scenario_worker_after
          = some { scenario_worker_after with
                    host_hasher := scenario_worker_after.host_hasher.with_state
                      { h1 with
                        buf := (draw_values (counter_uniform 0 UINT8_MAX) 24
                                  scenario_worker_after.random_gen).map (· % 256)
                                ++ h1.buf.drop 24 }
                    random_gen := draw_state (counter_uniform 0 UINT8_MAX) 24
                                    scenario_worker_after.random_gen } :=
  ⟨scenario_reset,
    reset_worker_twice 74 128 counter_uniform scenario_mem scenario_worker
      scenario_worker_after scenario_reset⟩

/-! ## Claims on `write_new_block` -/

set_option maxRecDepth 8000 in
/-- The scenario, serialised: 85 bytes, of which the length field says 81. -/
theorem scenario_message :
    write_new_block scenario_mem scenario_worker_after
      = some ([0, 0, 0, 81, 0, 0, 0, 0, 76]
                ++ [232, 233, 234, 235, 236, 237, 238, 239, 240, 241, 242, 243,
                    244, 245, 246, 247, 248, 249, 250, 251, 252, 253, 254, 255]
                ++ List.replicate 50 0 ++ [65, 66], 85) := by
  rfl

theorem scenario_host_buf :
    host_buf scenario_worker_after
      = some ([232, 233, 234, 235, 236, 237, 238, 239, 240, 241, 242, 243,
               244, 245, 246, 247, 248, 249, 250, 251, 252, 253, 254, 255]
                ++ List.replicate 104 0) := by
  rfl

theorem scenario_ref_host_buf :
    host_buf scenario_ref_worker_after
      = some ([232, 233, 234, 235, 236, 237, 238, 239, 240, 241, 242, 243,
               244, 245, 246, 247, 248, 249, 250, 251, 252, 253, 254, 255]
                ++ List.replicate 104 0) := by
  rfl

/-- C1: for a worker whose current template has header bytes `h` and
transaction bytes `t` with `24 + len h + len t + 5 < 2^32`,
`write_new_block` writes exactly: the message length as a 4-byte big-endian
integer, the byte 0, the block length as a 4-byte big-endian integer, the
first 24 bytes of the host hasher input buffer, `h`, then `t`, where the
block length is `24 + len h + len t` and the message length is
`1 + 4 + block length`. -/
theorem write_new_block_bytes {G : Type} (mem : template_mem) (w : mining_worker_t G)
    (t : mining_template_t) (b : List Nat)
    (hmem : mem (load_worker__template w) = some t)
    (hbuf : host_buf w = some b) (hb : 24 ≤ b.length)
    (hsize : 24 + t.job.header_blob.len + t.job.txs_blob.len + 5 < 4294967296) :
    ∃ f1 f2 ret,
      write_new_block mem w
        = some (f1 ++ [0] ++ f2 ++ b.take 24 ++ t.job.header_blob.blob
                  ++ t.job.txs_blob.blob, ret) ∧
      f1.length = 4 ∧ (∀ x ∈ f1, x < 256) ∧
      be_value f1 = 1 + 4 + (24 + t.job.header_blob.len + t.job.txs_blob.len) ∧
      f2.length = 4 ∧ (∀ x ∈ f2, x < 256) ∧
      be_value f2 = 24 + t.job.header_blob.len + t.job.txs_blob.len ∧
      (b.take 24).length = 24 := by
  obtain ⟨a1, a2, a3⟩ :=
    write_size_nil_bytes (1 + 4 + (24 + t.job.header_blob.len + t.job.txs_blob.len))
  obtain ⟨c1, c2, c3⟩ :=
    write_size_nil_bytes (24 + t.job.header_blob.len + t.job.txs_blob.len)
  refine ⟨_, _, _, write_new_block_eq mem w t b hmem hbuf hb, a1, a2, ?_, c1, c2, ?_, ?_⟩
  · rw [a3]
    omega
  · rw [c3]
    omega
  · rw [List.length_take]
    omega

/-- Witness for C1: the inline worker of the scenario after its reset. -/
theorem write_new_block_bytes_witness :
    scenario_mem (load_worker__template scenario_worker_after)
        = some { job := scenario_job, ref_count := 0 } ∧
      24 + scenario_job.header_blob.len + scenario_job.txs_blob.len + 5 < 4294967296 ∧
      ∃ f1 f2 ret,
        write_new_block scenario_mem scenario_worker_after
          = some (f1 ++ [0] ++ f2
                    ++ ([232, 233, 234, 235, 236, 237, 238, 239, 240, 241, 242, 243,
                         244, 245, 246, 247, 248, 249, 250, 251, 252, 253, 254, 255]
                          ++ List.replicate 104 0).take 24
                    ++ scenario_job.header_blob.blob ++ scenario_job.txs_blob.blob, ret) ∧
        f1.length = 4 ∧ (∀ x ∈ f1, x < 256) ∧
        be_value f1 = 1 + 4 + (24 + scenario_job.header_blob.len + scenario_job.txs_blob.len) ∧
        f2.length = 4 ∧ (∀ x ∈ f2, x < 256) ∧
        be_value f2 = 24 + scenario_job.header_blob.len + scenario_job.txs_blob.len ∧
        (([232, 233, 234, 235, 236, 237, 238, 239, 240, 241, 242, 243,
           244, 245, 246, 247, 248, 249, 250, 251, 252, 253, 254, 255]
            ++ List.replicate 104 0).take 24).length = 24 :=
  ⟨rfl, by decide,
    write_new_block_bytes scenario_mem scenario_worker_after
      { job := scenario_job, ref_count := 0 } _ rfl scenario_host_buf (by decide) (by decide)⟩

/-- C2, as stated, fails: with an empty header and `2^32 - 29` transaction
bytes the message is `2^32` bytes long after its length field, and the
4-byte length field read back is not `5 + 24 + len h + len t`. -/
theorem round_trip_length_field_wraps :
    ((write_new_block wide_mem scenario_worker_after).bind
        (fun r => parse_new_block wide_template.job.header_blob.len r.1)).map
          new_block_message.message_length
      ≠ some (5 + 24 + wide_template.job.header_blob.len
                + wide_template.job.txs_blob.len) := by
  have hmem : wide_mem (load_worker__template scenario_worker_after) = some wide_template :=
    rfl
  have hb : 24 ≤ ([232, 233, 234, 235, 236, 237, 238, 239, 240, 241, 242, 243,
               244, 245, 246, 247, 248, 249, 250, 251, 252, 253, 254, 255]
                ++ List.replicate 104 0).length := by simp
  have hw := write_new_block_eq wide_mem scenario_worker_after wide_template _ hmem
    scenario_host_buf hb
  have hn : (([232, 233, 234, 235, 236, 237, 238, 239, 240, 241, 242, 243,
               244, 245, 246, 247, 248, 249, 250, 251, 252, 253, 254, 255]
                ++ List.replicate 104 0).take 24).length = 24 := by simp
  have hp := parse_new_block_layout
    (1 + 4 + (24 + wide_template.job.header_blob.len + wide_template.job.txs_blob.len)) 0
    (24 + wide_template.job.header_blob.len + wide_template.job.txs_blob.len) _
    wide_template.job.header_blob.blob wide_template.job.txs_blob.blob hn
  have hh : wide_template.job.header_blob.len = 0 := rfl
  have ht : wide_template.job.txs_blob.len = 4294967267 := List.length_replicate _ _
  rw [hw, Option.some_bind]
  show Option.map new_block_message.message_length
    (parse_new_block wide_template.job.header_blob.blob.length _) ≠ _
  rw [hp, Option.map_some', hh, ht]
  decide

/-- C2, amended: for every 24-byte nonce `n` at the front of the host input
buffer, every header `h` and every transaction payload `t`,
`write_new_block` returns and parsing its output with the inverse of the
wire format yields back exactly `(n, h, t)` with type byte 0; the
message length field read back is `5 + 24 + len h + len t` reduced modulo
`2^32`, hence equal to `5 + 24 + len h + len t` whenever that is below
`2^32`. -/
theorem write_new_block_round_trip {G : Type} (mem : template_mem) (w : mining_worker_t G)
    (t : mining_template_t) (n rest : List Nat)
    (hmem : mem (load_worker__template w) = some t)
    (hbuf : host_buf w = some (n ++ rest)) (hn : n.length = 24) :
    ∃ out ret m,
      write_new_block mem w = some (out, ret) ∧
      parse_new_block t.job.header_blob.len out = some m ∧
      m.nonce = n ∧ m.header = t.job.header_blob.blob ∧ m.txs = t.job.txs_blob.blob ∧
      m.message_type = 0 ∧
      m.message_length
        = (5 + 24 + t.job.header_blob.len + t.job.txs_blob.len) % 4294967296 ∧
      (5 + 24 + t.job.header_blob.len + t.job.txs_blob.len < 4294967296 →
        m.message_length = 5 + 24 + t.job.header_blob.len + t.job.txs_blob.len) := by
  have hb : 24 ≤ (n ++ rest).length := by
    rw [List.length_append]
    omega
  have htake : (n ++ rest).take 24 = n := List.take_left' hn
  have hw := write_new_block_eq mem w t _ hmem hbuf hb
  rw [htake] at hw
  have hp := parse_new_block_layout
    (1 + 4 + (24 + t.job.header_blob.len + t.job.txs_blob.len)) 0
    (24 + t.job.header_blob.len + t.job.txs_blob.len) n
    t.job.header_blob.blob t.job.txs_blob.blob hn
  refine ⟨_, _, _, hw, hp, rfl, rfl, rfl, rfl, ?_, ?_⟩
  · show (1 + 4 + (24 + t.job.header_blob.len + t.job.txs_blob.len)) % 4294967296 = _
    congr 1
    omega
  · intro hlt
    show (1 + 4 + (24 + t.job.header_blob.len + t.job.txs_blob.len)) % 4294967296 = _
    omega

/-- Witness for C2 as amended: 50 zero header bytes and transactions `AB`, message length 81. -/
theorem write_new_block_round_trip_witness :
    scenario_mem (load_worker__template scenario_worker_after)
        = some { job := scenario_job, ref_count := 0 } ∧
      5 + 24 + scenario_job.header_blob.len + scenario_job.txs_blob.len = 81 ∧
      ∃ out ret m,
        write_new_block scenario_mem scenario_worker_after = some (out, ret) ∧
        parse_new_block scenario_job.header_blob.len out = some m ∧
        m.nonce = [232, 233, 234, 235, 236, 237, 238, 239, 240, 241, 242, 243,
                   244, 245, 246, 247, 248, 249, 250, 251, 252, 253, 254, 255] ∧
        m.header = scenario_job.header_blob.blob ∧ m.txs = scenario_job.txs_blob.blob ∧
        m.message_type = 0 ∧
        m.message_length
          = (5 + 24 + scenario_job.header_blob.len + scenario_job.txs_blob.len)
              % 4294967296 ∧
        (5 + 24 + scenario_job.header_blob.len + scenario_job.txs_blob.len < 4294967296 →
          m.message_length
            = 5 + 24 + scenario_job.header_blob.len + scenario_job.txs_blob.len) :=
  ⟨rfl, by decide,
    write_new_block_round_trip scenario_mem scenario_worker_after
      { job := scenario_job, ref_count := 0 } _ (List.replicate 104 0) rfl
      scenario_host_buf (by decide)⟩

/-- C3: for every worker on a valid template, the value `write_new_block`
returns is the number of bytes it wrote (the distance the write position
advanced), which is the message length plus 4, that is,
`33 + len header_blob + len txs_blob`. -/
theorem write_new_block_returns_count {G : Type} (mem : template_mem)
    (w : mining_worker_t G) (t : mining_template_t) (b : List Nat)
    (hmem : mem (load_worker__template w) = some t)
    (hbuf : host_buf w = some b) (hb : 24 ≤ b.length) :
    ∃ out ret,
      write_new_block mem w = some (out, ret) ∧
      ret = out.length ∧
      ret = (1 + 4 + (24 + t.job.header_blob.len + t.job.txs_blob.len)) + 4 ∧
      ret = 33 + t.job.header_blob.len + t.job.txs_blob.len := by
  refine ⟨_, _, write_new_block_eq mem w t b hmem hbuf hb, ?_, rfl, by omega⟩
  simp only [List.length_append, write_size_length, List.length_nil, List.length_singleton,
    List.length_take, blob_t.len]
  omega

/-- Witness for C3: the reference worker of the scenario after its reset. -/
theorem write_new_block_returns_count_witness :
    scenario_mem (load_worker__template scenario_ref_worker_after)
        = some { job := scenario_job, ref_count := 0 } ∧
      ∃ out ret,
        write_new_block scenario_mem scenario_ref_worker_after = some (out, ret) ∧
        ret = out.length ∧
        ret = (1 + 4 + (24 + scenario_job.header_blob.len + scenario_job.txs_blob.len)) + 4 ∧
        ret = 33 + scenario_job.header_blob.len + scenario_job.txs_blob.len :=
  ⟨rfl,
    write_new_block_returns_count scenario_mem scenario_ref_worker_after
      { job := scenario_job, ref_count := 0 } _ rfl scenario_ref_host_buf (by decide)⟩

/-- C10: what is sent is what was hashed.  If `reset_worker` returned on a
worker with current template `T`, and at the time of `write_new_block` the
template pointer and the first `24 + len T.header_blob` bytes of the host
input buffer are what the reset left, then `write_new_block` returns and the
block body it writes (the bytes after the 9-byte prefix) is the first
`24 + len T.header_blob` bytes of the host input buffer followed by the
transaction bytes of `T`, for either hasher variant. -/
theorem write_new_block_sends_hashed {G : Type} (LEN CAP : Nat) (uid : Nat → Nat → G → Nat × G)
    (mem : template_mem) (w w1 w2 : mining_worker_t G) (t : mining_template_t)
    (b1 b2 : List Nat)
    (hreset : reset_worker LEN CAP uid mem w = some w1)
    (hmem : mem (load_worker__template w1) = some t)
    (hptr : load_worker__template w2 = load_worker__template w1)
    (hb1 : host_buf w1 = some b1) (hb2 : host_buf w2 = some b2)
    (hsame : b2.take (24 + t.job.header_blob.len) = b1.take (24 + t.job.header_blob.len)) :
    ∃ out ret,
      write_new_block mem w2 = some (out, ret) ∧
      out.drop 9 = b2.take (24 + t.job.header_blob.len) ++ t.job.txs_blob.blob ∧
      out.drop 9 = b1.take (24 + t.job.header_blob.len) ++ t.job.txs_blob.blob ∧
      (b2.take (24 + t.job.header_blob.len)).length = 24 + t.job.header_blob.len ∧
      (b2.take (24 + t.job.header_blob.len)).drop 24 = t.job.header_blob.blob := by
  obtain ⟨t0, h0, hm0, -, hlen, -, -, -, hh1, hw⟩ := reset_worker_some hreset
  have hp1 : load_worker__template w1 = w.template_ptr := by rw [hw]; rfl
  have ht : t0 = t := Option.some.inj (hm0.symm.trans (hp1 ▸ hmem))
  subst ht
  have hb1eq : b1 = (hasher_after_reset (uid 0 UINT8_MAX) t0.job h0 w.random_gen).buf := by
    have := host_buf_eq w1
    rw [hb1, hh1] at this
    exact Option.some.inj this
  have hdl : ((draw_values (uid 0 UINT8_MAX) 24 w.random_gen).map (· % 256)).length = 24 := by
    simp [draw_values_length]
  have hpre : ((draw_values (uid 0 UINT8_MAX) 24 w.random_gen).map (· % 256)
      ++ t0.job.header_blob.blob).length = 24 + t0.job.header_blob.len := by
    rw [List.length_append, hdl]
    rfl
  have hb1take : b1.take (24 + t0.job.header_blob.len)
      = (draw_values (uid 0 UINT8_MAX) 24 w.random_gen).map (· % 256) ++ t0.job.header_blob.blob := by
    rw [hb1eq]
    exact List.take_left' hpre
  have h2take := hsame.trans hb1take
  have h2len : 24 + t0.job.header_blob.len ≤ b2.length := by
    have := congrArg List.length h2take
    rw [List.length_take, hpre] at this
    omega
  have h2nonce : b2.take 24 = (draw_values (uid 0 UINT8_MAX) 24 w.random_gen).map (· % 256) := by
    have := congrArg (List.take 24) h2take
    rw [List.take_take, List.take_left' hdl] at this
    rw [← this]
    congr 1
    omega
  have hm2 : mem (load_worker__template w2) = some t0 := by rw [hptr]; exact hmem
  have hout := write_new_block_eq mem w2 t0 b2 hm2 hb2 (by omega)
  have hdrop : ∀ (x y : Nat) (rest : List Nat),
      (write_size [] x ++ [0] ++ write_size [] y ++ rest).drop 9 = rest := by
    intro x y rest
    simp [write_size]
  have hbody : (write_size [] (1 + 4 + (24 + t0.job.header_blob.len + t0.job.txs_blob.len))
        ++ [0] ++ write_size [] (24 + t0.job.header_blob.len + t0.job.txs_blob.len)
        ++ b2.take 24 ++ t0.job.header_blob.blob ++ t0.job.txs_blob.blob).drop 9
      = b2.take (24 + t0.job.header_blob.len) ++ t0.job.txs_blob.blob := by
    rw [h2take, h2nonce]
    simp only [List.append_assoc]
    have := hdrop (1 + 4 + (24 + t0.job.header_blob.len + t0.job.txs_blob.len))
      (24 + t0.job.header_blob.len + t0.job.txs_blob.len)
      ((draw_values (uid 0 UINT8_MAX) 24 w.random_gen).map (· % 256)
        ++ (t0.job.header_blob.blob ++ t0.job.txs_blob.blob))
    simpa only [List.append_assoc] using this
  refine ⟨_, _, hout, hbody, ?_, ?_, ?_⟩
  · rw [hbody, hsame]
  · rw [h2take, hpre]
  · rw [h2take]
    exact List.drop_left' hdl

/-- Witness for C10: the reference worker of the scenario, serialised right after its reset. -/
theorem write_new_block_sends_hashed_witness :
    reset_worker 74 128 counter_uniform scenario_mem scenario_ref_worker
        = some scenario_ref_worker_after ∧
      ∃ out ret,
        write_new_block scenario_mem scenario_ref_worker_after = some (out, ret) ∧
        out.drop 9
          = ([232, 233, 234, 235, 236, 237, 238, 239, 240, 241, 242, 243,
              244, 245, 246, 247, 248, 249, 250, 251, 252, 253, 254, 255]
              ++ List.replicate 104 0).take (24 + scenario_job.header_blob.len)
            ++ scenario_job.txs_blob.blob ∧
        out.drop 9
          = ([232, 233, 234, 235, 236, 237, 238, 239, 240, 241, 242, 243,
              244, 245, 246, 247, 248, 249, 250, 251, 252, 253, 254, 255]
              ++ List.replicate 104 0).take (24 + scenario_job.header_blob.len)
            ++ scenario_job.txs_blob.blob ∧
        (([232, 233, 234, 235, 236, 237, 238, 239, 240, 241, 242, 243,
           244, 245, 246, 247, 248, 249, 250, 251, 252, 253, 254, 255]
            ++ List.replicate 104 0).take (24 + scenario_job.header_blob.len)).length
          = 24 + scenario_job.header_blob.len ∧
        (([232, 233, 234, 235, 236, 237, 238, 239, 240, 241, 242, 243,
           244, 245, 246, 247, 248, 249, 250, 251, 252, 253, 254, 255]
            ++ List.replicate 104 0).take (24 + scenario_job.header_blob.len)).drop 24
          = scenario_job.header_blob.blob :=
  ⟨scenario_ref_reset,
    write_new_block_sends_hashed 74 128 counter_uniform scenario_mem
      scenario_ref_worker
      scenario_ref_worker_after scenario_ref_worker_after
      { job := scenario_job, ref_count := 0 } _ _ scenario_ref_reset rfl rfl
      scenario_ref_host_buf scenario_ref_host_buf rfl⟩

/-! ## Claim on `setup_template` -/

/-- C4: `setup_template(worker, T)` on a valid template `T` raises the
reference count of `T` by exactly one and makes `T` the current template of
the worker (`load_worker__template` returns `T` afterwards, nothing else in
the worker changes); the template at every other address is untouched, so
the template installed before is not decremented.  Hence after installing
`T` and then any `B` on the same worker, the reference count of `T` is still
at least its count after the first install, so at least 1. -/
theorem setup_template_retains {G : Type} (mem : template_mem) (w : mining_worker_t G)
    (T : Nat) (t : mining_template_t) (hT : mem T = some t) :
    ∃ mem1 w1,
      setup_template mem w T = some (mem1, w1) ∧
      mem1 T = some { t with ref_count := t.ref_count + 1 } ∧
      load_worker__template w1 = T ∧
      w1 = { w with template_ptr := T } ∧
      (∀ p, p ≠ T → mem1 p = mem p) ∧
      ∀ B b, mem B = some b →
        ∃ mem2 w2 a,
          setup_template mem1 w1 B = some (mem2, w2) ∧
          load_worker__template w2 = B ∧
          mem2 T = some a ∧ a.job = t.job ∧
          t.ref_count + 1 ≤ a.ref_count ∧ 1 ≤ a.ref_count := by
  refine ⟨fun p => if p = T then some { t with ref_count := t.ref_count + 1 } else mem p,
    store_worker__template w T, setup_template_eq mem w T t hT, ?_, rfl, rfl, ?_, ?_⟩
  · simp only [if_true]
  · intro p hp
    simp only [if_neg hp]
  · intro B b hB
    by_cases hBT : B = T
    · subst hBT
      have h1 : (fun p => if p = B then some { t with ref_count := t.ref_count + 1 }
          else mem p) B = some { t with ref_count := t.ref_count + 1 } := by
        simp only [if_true]
      refine ⟨_, _, { t with ref_count := t.ref_count + 1 + 1 },
        setup_template_eq _ (store_worker__template w B) B _ h1, rfl, ?_, rfl, ?_, ?_⟩
      · simp only [if_true]
      · simp only
        omega
      · simp only
        omega
    · have h1 : (fun p => if p = T then some { t with ref_count := t.ref_count + 1 }
          else mem p) B = some b := by
        simp only [if_neg hBT, hB]
      have hTB : ¬ T = B := fun h => hBT h.symm
      refine ⟨_, _, { t with ref_count := t.ref_count + 1 },
        setup_template_eq _ (store_worker__template w T) B b h1, rfl, ?_, rfl, ?_, ?_⟩
      · simp only [if_neg hTB, if_true]
      · simp only
        omega
      · simp only
        omega

/-- Witness for C4: template 1 of the scenario, count 0 before the install. -/
theorem setup_template_retains_witness :
    scenario_mem 1 = some { job := scenario_job, ref_count := 0 } ∧
      ∃ mem1 w1,
        setup_template scenario_mem scenario_worker 1 = some (mem1, w1) ∧
        mem1 1 = some { ({ job := scenario_job, ref_count := 0 } : mining_template_t) with
                        ref_count := 0 + 1 } ∧
        load_worker__template w1 = 1 ∧
        w1 = { scenario_worker with template_ptr := 1 } ∧
        (∀ p, p ≠ 1 → mem1 p = scenario_mem p) ∧
        ∀ B b, scenario_mem B = some b →
          ∃ mem2 w2 a,
            setup_template mem1 w1 B = some (mem2, w2) ∧
            load_worker__template w2 = B ∧
            mem2 1 = some a ∧ a.job = scenario_job ∧
            0 + 1 ≤ a.ref_count ∧ 1 ≤ a.ref_count :=
  ⟨rfl, setup_template_retains scenario_mem scenario_worker 1
          { job := scenario_job, ref_count := 0 } rfl⟩

end GpuMiner
